import Mathlib

/-!
Verification of the macOS compatibility headers for Linux kernel types.

The repository consists of two C header files:
  src/headers/asm/posix_types.h  (Header A)
  src/headers/asm/types.h        (Header B)
Each header is a pure list of compile-time typedef declarations, protected
by a standard inclusion guard. We embed the C integer types the headers map
onto, the declaration lists of both headers exactly as they appear in the
source, and the preprocessor semantics of guarded inclusion, and prove the
specified properties about widths, signedness, guard idempotence and the
exported name sets.
-/

namespace KernelHeaders

/-- The C integer types targeted by the typedefs in the two headers: the
exact-width stdint.h types, plus the two platform-width types used by
types.h (whose width follows the host pointer width on LP64 hosts). -/
inductive CIntType where
  | uint8_t
  | int8_t
  | uint16_t
  | int16_t
  | uint32_t
  | int32_t
  | uint64_t
  | int64_t
  | unsigned_long
  | long
deriving DecidableEq, Repr

/-- The exact bit width of a stdint.h type, or none for the two
platform-dependent long types. -/
def CIntType.exactWidth : CIntType → Option Nat
  | .uint8_t | .int8_t => some 8
  | .uint16_t | .int16_t => some 16
  | .uint32_t | .int32_t => some 32
  | .uint64_t | .int64_t => some 64
  | .unsigned_long | .long => none

/-- Signedness of each C integer type. -/
def CIntType.isSigned : CIntType → Bool
  | .int8_t | .int16_t | .int32_t | .int64_t | .long => true
  | _ => false

/-- The representation width of a C integer type on a host whose pointer
width is `ptrWidth`: exact-width types keep their fixed width, the long
types take the pointer width (the LP64 data model of 64-bit hosts). -/
def CIntType.width (ptrWidth : Nat) (t : CIntType) : Nat :=
  t.exactWidth.getD ptrWidth

/-- Smallest representable value of `t` on a host with pointer width
`ptrWidth`. -/
def CIntType.minVal (ptrWidth : Nat) (t : CIntType) : Int :=
  if t.isSigned then -(2 ^ (t.width ptrWidth - 1)) else 0

/-- Largest representable value of `t` on a host with pointer width
`ptrWidth`. -/
def CIntType.maxVal (ptrWidth : Nat) (t : CIntType) : Int :=
  if t.isSigned then 2 ^ (t.width ptrWidth - 1) - 1 else 2 ^ t.width ptrWidth - 1

/-- A top-level declaration a C header can contribute to a translation
unit: a typedef of an integer type, a preprocessor object definition, a
function declaration, or an object declaration. The two headers of this
repository only ever use the `typedef` form. -/
inductive Decl where
  | typedef (name : String) (target : CIntType)
  | ppDefine (name : String)
  | funDecl (name : String)
  | objDecl (name : String)
deriving DecidableEq, Repr

/-- The identifier a declaration introduces. -/
def Decl.name : Decl → String
  | .typedef n _ => n
  | .ppDefine n => n
  | .funDecl n => n
  | .objDecl n => n

/-- A guarded header file: its inclusion-guard symbol and the declarations
between the guard lines. -/
structure Header where
  guard : String
  body : List Decl
deriving DecidableEq, Repr

/-- src/headers/asm/posix_types.h (Header A), declaration for declaration
in source order. -/
def posix_types_h : Header :=
  { guard := "_ASM_POSIX_TYPES_H"
    body :=
      [ .typedef ("__kernel_dev_t") .uint64_t
      , .typedef ("__kernel_ino_t") .uint64_t
      , .typedef ("__kernel_mode_t") .uint32_t
      , .typedef ("__kernel_nlink_t") .uint32_t
      , .typedef ("__kernel_uid_t") .uint32_t
      , .typedef ("__kernel_gid_t") .uint32_t
      , .typedef ("__kernel_off_t") .int64_t
      , .typedef ("__kernel_pid_t") .int32_t
      , .typedef ("__kernel_daddr_t") .int32_t ] }

/-- src/headers/asm/types.h (Header B), declaration for declaration in
source order. -/
def types_h : Header :=
  { guard := "_ASM_TYPES_H"
    body :=
      [ .typedef ("__u8") .uint8_t
      , .typedef ("__s8") .int8_t
      , .typedef ("__u16") .uint16_t
      , .typedef ("__s16") .int16_t
      , .typedef ("__u32") .uint32_t
      , .typedef ("__s32") .int32_t
      , .typedef ("__u64") .uint64_t
      , .typedef ("__s64") .int64_t
      , .typedef ("__kernel_ulong_t") .unsigned_long
      , .typedef ("__kernel_long_t") .long ] }

/-- The typedef (name, target) pairs of a header, in source order. -/
def Header.typedefs (h : Header) : List (String × CIntType) :=
  h.body.filterMap fun d =>
    match d with
    | .typedef n t => some (n, t)
    | _ => none

/-- The identifiers a header exports: its guard symbol and the names of
all of its declarations. -/
def Header.exportedNames (h : Header) : List String :=
  h.guard :: h.body.map Decl.name

/-- The type an alias name resolves to in a header, if the header defines
that alias. -/
def resolve (h : Header) (n : String) : Option CIntType :=
  h.typedefs.lookup n

/-- The nine alias names documented for Header A (posix_types.h). -/
def posixAliasNames : List String :=
  [ "__kernel_dev_t", "__kernel_ino_t", "__kernel_mode_t", "__kernel_nlink_t"
  , "__kernel_uid_t", "__kernel_gid_t", "__kernel_off_t", "__kernel_pid_t"
  , "__kernel_daddr_t" ]

/-- The ten alias names documented for Header B (types.h). -/
def typesAliasNames : List String :=
  [ "__u8", "__s8", "__u16", "__s16", "__u32", "__s32", "__u64", "__s64"
  , "__kernel_ulong_t", "__kernel_long_t" ]

/-- All documented alias names of the repository. -/
def allAliasNames : List String := posixAliasNames ++ typesAliasNames

/-- Preprocessing state of a translation unit: the set of preprocessor
symbols defined so far and the typedefs emitted so far, in emission
order. -/
structure PPState where
  defined : List String
  typedefs : List (String × CIntType)
deriving DecidableEq, Repr

/-- The empty translation unit: nothing defined, nothing emitted. -/
def PPState.init : PPState := ⟨[], []⟩

/-- The alias names emitted so far. -/
def PPState.names (s : PPState) : List String := s.typedefs.map Prod.fst

/-- Guarded inclusion of a header, as the preprocessor performs it: if the
guard symbol is already defined the file contributes nothing; otherwise
the guard symbol becomes defined and the header body is emitted. -/
def includeHeader (h : Header) (s : PPState) : PPState :=
  if s.defined.contains h.guard then s
  else { defined := h.guard :: s.defined, typedefs := s.typedefs ++ h.typedefs }

/-- The two header files of the repository, as inclusion targets. -/
inductive Hdr where
  | A
  | B
deriving DecidableEq, Repr

/-- The header file each inclusion target denotes. -/
def hdrFile : Hdr → Header
  | .A => posix_types_h
  | .B => types_h

/-- Process a sequence of `#include` directives from a given state. -/
def processAll (seq : List Hdr) (s : PPState) : PPState :=
  seq.foldl (fun st g => includeHeader (hdrFile g) st) s

end KernelHeaders

namespace KernelHeaders

/-- Unfolding lemma: processing a cons of includes. -/
theorem processAll_cons (g : Hdr) (rest : List Hdr) (s : PPState) :
    processAll (g :: rest) s = processAll rest (includeHeader (hdrFile g) s) := rfl

/-- Guarded inclusion only ever adds typedefs: every alias name already
emitted is still emitted afterwards. -/
theorem includeHeader_names_mono (h : Header) (s : PPState) (n : String)
    (hn : n ∈ s.names) : n ∈ (includeHeader h s).names := by
  by_cases hc : h.guard ∈ s.defined
  · simpa [includeHeader, hc] using hn
  · simp [includeHeader, hc, PPState.names] at hn ⊢
    exact Or.inl hn

/-- Processing any sequence of includes only ever adds typedefs. -/
theorem processAll_names_mono (seq : List Hdr) (s : PPState) (n : String)
    (hn : n ∈ s.names) : n ∈ (processAll seq s).names := by
  induction seq generalizing s with
  | nil => exact hn
  | cons g rest ih =>
    rw [processAll_cons]
    exact ih _ (includeHeader_names_mono _ _ _ hn)

/-- State invariant tying the guard symbols to the emitted typedefs: once a
header's guard symbol is defined, all of that header's alias names have
been emitted. -/
def GuardInv (s : PPState) : Prop :=
  ∀ g : Hdr, (hdrFile g).guard ∈ s.defined →
    ∀ n ∈ ((hdrFile g).typedefs).map Prod.fst, n ∈ s.names

/-- The empty translation unit satisfies the guard invariant. -/
theorem guardInv_init : GuardInv PPState.init := by
  intro g hg
  simp [PPState.init] at hg

/-- Guarded inclusion preserves the guard invariant. -/
theorem includeHeader_guardInv (g : Hdr) (s : PPState) (hs : GuardInv s) :
    GuardInv (includeHeader (hdrFile g) s) := by
  intro g' hg' n hn
  by_cases hc : (hdrFile g).guard ∈ s.defined
  · simp only [includeHeader, hc] at hg' ⊢
    simp at hg' ⊢
    simp [hc] at hg' ⊢
    exact hs g' hg' n hn
  · simp [includeHeader, hc, PPState.names] at hg' ⊢
    rcases hg' with heq | hmem
    · have hgg : g' = g := by
        cases g <;> cases g' <;> simp_all [hdrFile, posix_types_h, types_h]
      subst hgg
      exact Or.inr (by simpa [PPState.names] using hn)
    · exact Or.inl (by simpa [PPState.names] using hs g' hmem n hn)

/-- Including a header from any invariant state makes all of that header's
alias names emitted afterwards, whether or not the guard fired. -/
theorem includeHeader_provides (g : Hdr) (s : PPState) (hs : GuardInv s) :
    ∀ n ∈ ((hdrFile g).typedefs).map Prod.fst,
      n ∈ (includeHeader (hdrFile g) s).names := by
  intro n hn
  by_cases hc : (hdrFile g).guard ∈ s.defined
  · simpa [includeHeader, hc] using hs g hc n hn
  · simp [includeHeader, hc, PPState.names]
    exact Or.inr (by simpa [PPState.names] using hn)

/-- After processing any include sequence containing a header, starting
from an invariant state, all of that header's alias names are emitted. -/
theorem processAll_provides (g : Hdr) (seq : List Hdr) (s : PPState)
    (hs : GuardInv s) (hmem : g ∈ seq) :
    ∀ n ∈ ((hdrFile g).typedefs).map Prod.fst, n ∈ (processAll seq s).names := by
  induction seq generalizing s with
  | nil => exact absurd hmem (List.not_mem_nil g)
  | cons h rest ih =>
    intro n hn
    rw [processAll_cons]
    rcases List.mem_cons.mp hmem with rfl | hrest
    · exact processAll_names_mono rest _ n (includeHeader_provides g s hs n hn)
    · exact ih _ (includeHeader_guardInv h s hs) hrest n hn

/-- Re-including an already-seen header is the identity on the state. -/
theorem includeHeader_idem (h : Header) (s : PPState) :
    includeHeader h (includeHeader h s) = includeHeader h s := by
  by_cases hc : h.guard ∈ s.defined
  · simp [includeHeader, hc]
  · simp [includeHeader, hc]

/-- Including a header one or more times in a row equals including it
once. -/
theorem processAll_replicate (g : Hdr) (k : Nat) (s : PPState) :
    processAll (List.replicate (k + 1) g) s = includeHeader (hdrFile g) s := by
  induction k generalizing s with
  | zero => rfl
  | succ m ih =>
    rw [List.replicate_succ, processAll_cons, ih, includeHeader_idem]

/-- The typedef names of Header A are exactly the documented nine. -/
theorem posix_typedef_names :
    posix_types_h.typedefs.map Prod.fst = posixAliasNames := by decide

/-- The typedef names of Header B are exactly the documented ten. -/
theorem types_typedef_names :
    types_h.typedefs.map Prod.fst = typesAliasNames := by decide

end KernelHeaders

namespace KernelHeaders

/-- Claim C1: Header B (src/headers/asm/types.h) exports, for each width N
in 8, 16, 32, 64, exactly two fixed-width aliases: one unsigned alias
whose name is the u-name for N and whose representation is exactly N bits
and unsigned, and one signed alias whose name is the s-name for N and
whose representation is exactly N bits and signed. -/
theorem C1_fixed_width_aliases :
    ∀ N ∈ ([8, 16, 32, 64] : List Nat),
      ((types_h.typedefs.filter fun p =>
          p.2.exactWidth == some N && !p.2.isSigned).map Prod.fst
        = ["__u" ++ toString N]) ∧
      ((types_h.typedefs.filter fun p =>
          p.2.exactWidth == some N && p.2.isSigned).map Prod.fst
        = ["__s" ++ toString N]) := by decide

/-- Witness for C1, at the concrete width 8. -/
theorem C1_fixed_width_aliases_witness :
    (8 : Nat) ∈ ([8, 16, 32, 64] : List Nat) ∧
    ((types_h.typedefs.filter fun p =>
        p.2.exactWidth == some (8 : Nat) && !p.2.isSigned).map Prod.fst
      = ["__u" ++ toString (8 : Nat)]) :=
  ⟨by decide, (C1_fixed_width_aliases 8 (by decide)).1⟩

/-- Claim C2: in Header A (src/headers/asm/posix_types.h), the aliases
named for device numbers and inode numbers each resolve to an exactly
64-bit unsigned integer type, on every host pointer width. -/
theorem C2_dev_ino_64bit_unsigned :
    resolve posix_types_h ("__kernel_dev_t") = some .uint64_t ∧
    resolve posix_types_h ("__kernel_ino_t") = some .uint64_t ∧
    CIntType.uint64_t.exactWidth = some 64 ∧
    CIntType.uint64_t.isSigned = false ∧
    ∀ ptrWidth : Nat, CIntType.uint64_t.width ptrWidth = 64 :=
  ⟨by decide, by decide, by decide, by decide, fun _ => rfl⟩

/-- Claim C3: in Header A, the aliases for file mode, link count, user id
and group id each resolve to an exactly 32-bit unsigned integer type, on
every host pointer width. -/
theorem C3_mode_nlink_uid_gid_32bit_unsigned :
    resolve posix_types_h ("__kernel_mode_t") = some .uint32_t ∧
    resolve posix_types_h ("__kernel_nlink_t") = some .uint32_t ∧
    resolve posix_types_h ("__kernel_uid_t") = some .uint32_t ∧
    resolve posix_types_h ("__kernel_gid_t") = some .uint32_t ∧
    CIntType.uint32_t.exactWidth = some 32 ∧
    CIntType.uint32_t.isSigned = false ∧
    ∀ ptrWidth : Nat, CIntType.uint32_t.width ptrWidth = 32 :=
  ⟨by decide, by decide, by decide, by decide, by decide, by decide, fun _ => rfl⟩

/-- Claim C4: in Header A, the file-offset alias resolves to an exactly
64-bit signed integer type, and the process-id and block-device-address
aliases each resolve to an exactly 32-bit signed integer type, on every
host pointer width. -/
theorem C4_off_pid_daddr_signed :
    resolve posix_types_h ("__kernel_off_t") = some .int64_t ∧
    resolve posix_types_h ("__kernel_pid_t") = some .int32_t ∧
    resolve posix_types_h ("__kernel_daddr_t") = some .int32_t ∧
    CIntType.int64_t.exactWidth = some 64 ∧
    CIntType.int64_t.isSigned = true ∧
    CIntType.int32_t.exactWidth = some 32 ∧
    CIntType.int32_t.isSigned = true ∧
    (∀ ptrWidth : Nat, CIntType.int64_t.width ptrWidth = 64) ∧
    (∀ ptrWidth : Nat, CIntType.int32_t.width ptrWidth = 32) :=
  ⟨by decide, by decide, by decide, by decide, by decide, by decide, by decide,
    fun _ => rfl, fun _ => rfl⟩

/-- Claim C5: Header B exports exactly one platform-width unsigned alias,
aliasing unsigned long, and exactly one platform-width signed alias,
aliasing signed long; both take the host pointer width as their width, so
on an LP64 host (pointer width 64) both are exactly 64 bits wide. -/
theorem C5_platform_width_aliases :
    (types_h.typedefs.filter fun p => p.2.exactWidth == none && !p.2.isSigned)
      = [("__kernel_ulong_t", .unsigned_long)] ∧
    (types_h.typedefs.filter fun p => p.2.exactWidth == none && p.2.isSigned)
      = [("__kernel_long_t", .long)] ∧
    CIntType.unsigned_long.isSigned = false ∧
    CIntType.long.isSigned = true ∧
    (∀ ptrWidth : Nat, CIntType.unsigned_long.width ptrWidth = ptrWidth ∧
      CIntType.long.width ptrWidth = ptrWidth) ∧
    CIntType.unsigned_long.width 64 = 64 ∧
    CIntType.long.width 64 = 64 :=
  ⟨by decide, by decide, by decide, by decide, fun _ => ⟨rfl, rfl⟩, rfl, rfl⟩

/-- Claim C6: including either header a second or any further time in the
same translation unit changes nothing: from any preprocessing state, one
or more consecutive inclusions of a header produce exactly the same state
as a single inclusion. -/
theorem C6_inclusion_idempotent :
    ∀ (s : PPState) (k : Nat),
      processAll (List.replicate (k + 1) Hdr.A) s = includeHeader posix_types_h s ∧
      processAll (List.replicate (k + 1) Hdr.B) s = includeHeader types_h s :=
  fun s k => ⟨processAll_replicate .A k s, processAll_replicate .B k s⟩

/-- Claim C7: the identifier sets exported by Header A and Header B
(typedef names plus guard symbols) are disjoint, and including both
headers together, in either order, emits every alias name exactly once
(no duplicate, hence no redefinition). -/
theorem C7_exports_disjoint :
    (posix_types_h.exportedNames.all fun n =>
      !(types_h.exportedNames.contains n)) = true ∧
    (processAll [Hdr.A, Hdr.B] PPState.init).names.Nodup ∧
    (processAll [Hdr.B, Hdr.A] PPState.init).names.Nodup := by
  refine ⟨by decide, by decide, by decide⟩

/-- Claim C8: each header consists of exactly one inclusion-guard symbol
and typedefs of the documented alias names, and nothing else: every body
declaration is a typedef whose name is documented, the typedef names are
exactly the documented list, and no function, object, or further
preprocessor definition occurs. -/
theorem C8_only_documented_decls :
    posix_types_h.guard = "_ASM_POSIX_TYPES_H" ∧
    types_h.guard = "_ASM_TYPES_H" ∧
    (posix_types_h.body.all fun d =>
      match d with
      | .typedef n _ => posixAliasNames.contains n
      | _ => false) = true ∧
    (types_h.body.all fun d =>
      match d with
      | .typedef n _ => typesAliasNames.contains n
      | _ => false) = true ∧
    posix_types_h.typedefs.map Prod.fst = posixAliasNames ∧
    types_h.typedefs.map Prod.fst = typesAliasNames := by
  refine ⟨rfl, rfl, by decide, by decide, by decide, by decide⟩

/-- Claim C9: the two headers use distinct guard symbols, the documented
alias names number nineteen, and after any interleaved inclusion sequence
containing both headers, every one of the nineteen alias names has been
emitted. -/
theorem C9_distinct_guards_all_defined :
    posix_types_h.guard ≠ types_h.guard ∧
    allAliasNames.length = 19 ∧
    ∀ (seq : List Hdr), Hdr.A ∈ seq → Hdr.B ∈ seq →
      ∀ n ∈ allAliasNames, n ∈ (processAll seq PPState.init).names := by
  refine ⟨by decide, by decide, ?_⟩
  intro seq hA hB n hn
  rcases List.mem_append.mp hn with h1 | h1
  · refine processAll_provides .A seq PPState.init guardInv_init hA n ?_
    rw [show (hdrFile .A) = posix_types_h from rfl, posix_typedef_names]
    exact h1
  · refine processAll_provides .B seq PPState.init guardInv_init hB n ?_
    rw [show (hdrFile .B) = types_h from rfl, types_typedef_names]
    exact h1

/-- Witness for C9, at the concrete sequence including Header A then
Header B and the concrete alias name of the device-number typedef. -/
theorem C9_distinct_guards_all_defined_witness :
    ("__kernel_dev_t") ∈ (processAll [Hdr.A, Hdr.B] PPState.init).names :=
  C9_distinct_guards_all_defined.2.2 [Hdr.A, Hdr.B] (by decide) (by decide)
    ("__kernel_dev_t") (by decide)

/-- Claim C10: every alias of Header A targets an exact-width stdint type
(its width is platform-independent), and any two Header A typedefs with
the same exact width and the same signedness target the identical
underlying type. -/
theorem C10_exact_width_interchangeable :
    (posix_types_h.typedefs.all fun p => p.2.exactWidth.isSome) = true ∧
    ∀ p ∈ posix_types_h.typedefs, ∀ q ∈ posix_types_h.typedefs,
      p.2.exactWidth = q.2.exactWidth → p.2.isSigned = q.2.isSigned →
        p.2 = q.2 := by
  refine ⟨by decide, by decide⟩

/-- Witness for C10, at the concrete user-id and group-id typedefs, which
share width 32 and unsignedness and indeed target the same type. -/
theorem C10_exact_width_interchangeable_witness :
    resolve posix_types_h ("__kernel_uid_t") = some .uint32_t ∧
    resolve posix_types_h ("__kernel_gid_t") = some .uint32_t ∧
    ("__kernel_uid_t", CIntType.uint32_t).2 = ("__kernel_gid_t", CIntType.uint32_t).2 :=
  ⟨by decide, by decide,
    C10_exact_width_interchangeable.2 ("__kernel_uid_t", CIntType.uint32_t)
      (by decide) ("__kernel_gid_t", CIntType.uint32_t) (by decide) rfl rfl⟩

end KernelHeaders
